import Mathlib

/-!
Verification of the AMS attendance schedule import pipeline.

This file gives a shallow embedding, in Lean, of the extraction and import
core of the repository (the cell classifier, day resolver, table locator and
schedule extractor of import_complete_schedules.py / import_schedule_smart.py,
the three database import loops, and the delete guards of app.py), and proves
or refutes the behavioural claims made about them.

Python strings are modelled as lists of characters (PyStr); the SQLite
database reached through SQLAlchemy is modelled as explicit lists of rows per
table, with query-by-predicate returning the first matching row and inserts
appending at the end, matching SQLAlchemy/SQLite first-match and
autoincrement behaviour for these scripts.
-/

set_option maxRecDepth 4000

namespace AMS

/-- Python str modelled as a list of characters. -/
abbrev PyStr := List Char

/-- Shorthand turning a Lean string literal into the PyStr model. -/
def pyl (s : String) : PyStr := s.toList

/-- Python str.strip() whitespace class (ASCII subset actually exercised). -/
def isSpaceP (c : Char) : Bool :=
  c == ' ' || c == '\t' || c == '\n' || c == '\r' || c == '\x0B' || c == '\x0C'

/-- Python str.strip(): drop leading and trailing whitespace. -/
def trimL (l : PyStr) : PyStr :=
  ((l.dropWhile isSpaceP).reverse.dropWhile isSpaceP).reverse

/-- Python str.split(sep) for a single-character separator. -/
def splitOnChar (sep : Char) : PyStr → List PyStr
  | [] => [[]]
  | c :: rest =>
    let r := splitOnChar sep rest
    if c = sep then [] :: r
    else
      match r with
      | [] => [[c]]
      | h :: t => (c :: h) :: t

/-- ASCII lowercase of one character (Python str.lower on the ASCII range). -/
def lowChar (c : Char) : Char :=
  if 'A' ≤ c ∧ c ≤ 'Z' then Char.ofNat (c.toNat + 32) else c

/-- Python str.lower() on the ASCII range. -/
def lowerL (l : PyStr) : PyStr := l.map lowChar

/-- Is the first list a prefix of the second (Boolean). -/
def pfxOf : PyStr → PyStr → Bool
  | [], _ => true
  | _ :: _, [] => false
  | a :: as, b :: bs => a == b && pfxOf as bs

/-- Python substring containment: needle in hay. -/
def hasSub : PyStr → PyStr → Bool
  | [], needle => needle.isEmpty
  | h :: t, needle => pfxOf needle (h :: t) || hasSub t needle

/-- Python ' '.join. -/
def joinSp : List PyStr → PyStr
  | [] => []
  | [x] => x
  | x :: y :: t => x ++ ' ' :: joinSp (y :: t)

/-- The list comprehension [line.strip() for line in t.split(chr(10)) if line.strip()]. -/
def pyLines (t : PyStr) : List PyStr :=
  (splitOnChar '\n' t).filterMap fun l =>
    let s := trimL l
    if s = [] then none else some s

/-- First non-blank (stripped) line of the stripped cell text. -/
def subjectLine (s : PyStr) : Option PyStr := (pyLines (trimL s)).head?

/-- Wall-clock time (hour, minute), the model of datetime.time. -/
abbrev Time := Nat × Nat

/-- Value of a decimal digit character. -/
def digitVal? (c : Char) : Option Nat :=
  if '0' ≤ c ∧ c ≤ '9' then some (c.toNat - 48) else none

/-- Python int(s) restricted to unsigned decimal digit strings. -/
def pyInt? (s : PyStr) : Option Nat :=
  if s = [] then none
  else
    s.foldl
      (fun acc c =>
        match acc, digitVal? c with
        | some a, some dv => some (a * 10 + dv)
        | _, _ => none)
      (some 0)

/-- parse_time of the import scripts: split on the colon, build a time object;
any failure (wrong arity, non-digits, out-of-range hour/minute) yields None. -/
def parse_time (s : PyStr) : Option Time :=
  match splitOnChar ':' s with
  | [a, b] =>
    match pyInt? a, pyInt? b with
    | some h, some m => if h < 24 ∧ m < 60 then some (h, m) else none
    | _, _ => none
  | _ => none

namespace Smart

/-- Filler vocabulary of import_schedule_smart.extract_subject_and_teacher. -/
def skip_keywords : List PyStr :=
  [pyl "ylbmessa", pyl "tsafkaerb", pyl "kaerb", pyl "assembly", pyl "breakfast", pyl "break"]

/-- import_schedule_smart.extract_subject_and_teacher: first non-blank line is
the subject, remaining lines joined with a space are the teacher, defaulting
to the sentinel Unknown; empty or filler cells yield (None, None). -/
def extract_subject_and_teacher (cell_text : PyStr) : Option PyStr × Option PyStr :=
  if trimL cell_text = [] then (none, none)
  else
    let t := trimL cell_text
    if skip_keywords.any (fun kw => hasSub (lowerL t) kw) then (none, none)
    else
      match pyLines t with
      | [] => (none, none)
      | subject :: rest =>
        (some subject, some (if rest.isEmpty then pyl "Unknown" else joinSp rest))

end Smart

namespace Complete

/-- Filler vocabulary of import_complete_schedules.extract_subject_and_teacher. -/
def skip_keywords : List PyStr :=
  [pyl "assembly", pyl "breakfast", pyl "break", pyl "ylbmessa", pyl "tsafkaerb",
   pyl "kaerb", pyl "lunch", pyl "recess", pyl "snack", pyl "prayer"]

/-- import_complete_schedules.extract_subject_and_teacher: like the smart
variant but with a minimum length of 2 on the whole cell and on the subject
line, and the sentinel teacher Unknown Teacher. -/
def extract_subject_and_teacher (cell_text : PyStr) : Option PyStr × Option PyStr :=
  if trimL cell_text = [] then (none, none)
  else
    let t := trimL cell_text
    if skip_keywords.any (fun kw => hasSub (lowerL t) kw) then (none, none)
    else if t.length < 2 then (none, none)
    else
      match pyLines t with
      | [] => (none, none)
      | l :: rest =>
        let subject := trimL l
        let teacher := trimL (if rest.isEmpty then pyl "Unknown Teacher" else joinSp rest)
        if subject.length < 2 then (none, none)
        else (some subject, some teacher)

end Complete

/-- One extracted raw schedule entry (the dict built by the extractors). -/
structure Entry where
  class_name : PyStr
  day : Nat
  day_name : PyStr
  startT : Option Time
  endT : Option Time
  subject : PyStr
  teacher : PyStr
  period : PyStr
  floor : Nat
  is_free : Bool
deriving DecidableEq

namespace Complete

/-- DAY_MAPPING of import_complete_schedules.py, in its insertion order. -/
def DAY_MAPPING : List (PyStr × Nat) :=
  [(pyl "sunday", 6), (pyl "monday", 0), (pyl "tuesday", 1), (pyl "wednesday", 2),
   (pyl "thursday", 3), (pyl "friday", 4), (pyl "saturday", 5)]

/-- First day name (in DAY_MAPPING order) occurring in the lowercased cell. -/
def dayInCell (cell : PyStr) : Option (PyStr × Nat) :=
  DAY_MAPPING.find? fun kv => hasSub (lowerL cell) kv.1

/-- Scan the truthy cells of one row for a day name. -/
def dayFromRow (row : List (Option PyStr)) : Option (PyStr × Nat) :=
  row.findSome? fun c =>
    match c with
    | none => none
    | some s => if s = [] then none else dayInCell s

/-- Scan the first three rows of the table for a day name. -/
def dayFromTable (table : List (List (Option PyStr))) : Option (PyStr × Nat) :=
  (table.take 3).findSome? dayFromRow

/-- Fallback: scan the full extracted page text for a day name. -/
def dayFromText (text : Option PyStr) : Option (PyStr × Nat) :=
  match text with
  | none => none
  | some t =>
    if t = [] then none
    else DAY_MAPPING.find? fun kv => hasSub (lowerL t) kv.1

/-- Day resolution of extract_schedules_from_pdf: table cells first, then the
full page text. -/
def resolveDay (table : List (List (Option PyStr))) (text : Option PyStr) :
    Option (PyStr × Nat) :=
  match dayFromTable table with
  | some r => some r
  | none => dayFromText text

/-- The ten period identifiers, in the order the source iterates them. -/
def PERIOD_KEYS : List PyStr :=
  [pyl "1", pyl "2", pyl "3", pyl "4", pyl "5", pyl "6", pyl "7", pyl "8", pyl "9", pyl "10"]

/-- TIME_PERIODS of import_complete_schedules.py. -/
def TIME_PERIODS : List (PyStr × PyStr × PyStr) :=
  [(pyl "1", pyl "08:30", pyl "09:05"), (pyl "2", pyl "09:05", pyl "09:40"),
   (pyl "3", pyl "09:40", pyl "10:20"), (pyl "4", pyl "10:20", pyl "11:00"),
   (pyl "5", pyl "11:00", pyl "11:40"), (pyl "6", pyl "11:40", pyl "12:20"),
   (pyl "7", pyl "12:20", pyl "13:00"), (pyl "8", pyl "13:00", pyl "13:40"),
   (pyl "9", pyl "13:40", pyl "14:15"), (pyl "10", pyl "14:15", pyl "14:50")]

/-- TIME_PERIODS.get(period) returning the interval strings when present. -/
def timeLookup (p : PyStr) : Option (PyStr × PyStr) :=
  (TIME_PERIODS.find? fun x => decide (x.1 = p)).map fun x => x.2

/-- Does one cell text match the token for one period: the numeral framed by
line breaks, the exact stripped numeral, the numeral starting the cell before
a line break, or the phrase period N in the lowercased text. -/
def periodTokenMatch (cell p : PyStr) : Bool :=
  hasSub cell ('\n' :: (p ++ ['\n'])) || decide (trimL cell = p) ||
    pfxOf (p ++ ['\n']) cell || hasSub (lowerL cell) (pyl "period " ++ p)

/-- First period (in order 1..10) whose token matches the cell. -/
def cellPeriod (cell : PyStr) : Option PyStr :=
  PERIOD_KEYS.find? (periodTokenMatch cell)

/-- Column-to-period pairs contributed by one row: every truthy cell matching
some period token, keyed by its column index. -/
def rowPeriodCols (row : List (Option PyStr)) : List (Nat × PyStr) :=
  row.enum.filterMap fun ic =>
    match ic.2 with
    | none => none
    | some s => if s = [] then none else (cellPeriod s).map fun p => (ic.1, p)

/-- Scan rows for the period-header row: accept the first row whose period
match count is at least 3, scanning at most the given budget of rows. -/
def scanRows : List (List (Option PyStr)) → Nat → Nat → Option (Nat × List (Nat × PyStr))
  | _, _, 0 => none
  | [], _, _ => none
  | r :: rs, idx, b + 1 =>
    let cols := rowPeriodCols r
    if 3 ≤ cols.length then some (idx, cols) else scanRows rs (idx + 1) b

/-- Period-header location of extract_schedules_from_pdf: scan at most the
first 5 rows of the table. -/
def findPeriodRow (table : List (List (Option PyStr))) : Option (Nat × List (Nat × PyStr)) :=
  scanRows table 0 5

/-- The free-period placeholder entry for one class row and period. -/
def freeEntry (class_name : PyStr) (day : Nat) (day_name : PyStr) (st et : Option Time)
    (p : PyStr) (floor : Nat) : Entry :=
  { class_name := class_name, day := day, day_name := day_name, startT := st, endT := et,
    subject := pyl "Free Period", teacher := pyl "No Teacher", period := p,
    floor := floor, is_free := true }

/-- Turn the classifier output for one cell into the emitted entry: an
academic entry when subject and teacher are both truthy, otherwise the
explicit free-period placeholder. -/
def mkEntry (pr : Option PyStr × Option PyStr) (class_name : PyStr) (day : Nat)
    (day_name : PyStr) (st et : Option Time) (p : PyStr) (floor : Nat) : Entry :=
  match pr with
  | (some subject, some teacher) =>
    if subject = [] ∨ teacher = [] then
      freeEntry class_name day day_name st et p floor
    else
      { class_name := class_name, day := day, day_name := day_name, startT := st, endT := et,
        subject := subject, teacher := teacher, period := p, floor := floor, is_free := false }
  | _ => freeEntry class_name day day_name st et p floor

/-- Classifier output for the cell of one period in one class row, through
the column lookup of the recorded column-to-period mapping. -/
def cellPair (period_columns : List (Nat × PyStr)) (row : List (Option PyStr))
    (period_num : PyStr) : Option PyStr × Option PyStr :=
  match (period_columns.find? fun pc => decide (pc.2 = period_num)).map (fun pc => pc.1) with
  | some ci =>
    match row.get? ci with
    | some (some cell) => if cell = [] then (none, none) else extract_subject_and_teacher cell
    | _ => (none, none)
  | none => (none, none)

/-- Emit the entry for one period of one class row (None only when the
time-slot catalog has no interval for the period). -/
def emitPeriod (period_columns : List (Nat × PyStr)) (row : List (Option PyStr))
    (class_name : PyStr) (day : Nat) (day_name : PyStr) (floor : Nat)
    (period_num : PyStr) : Option Entry :=
  match timeLookup period_num with
  | none => none
  | some (sts, ets) =>
    if sts = [] ∨ ets = [] then none
    else
      some (mkEntry (cellPair period_columns row period_num) class_name day day_name
        (parse_time sts) (parse_time ets) period_num floor)

/-- All entries emitted for one processed class row: one per period of
PERIOD_KEYS for which the catalog has an interval. -/
def emitRow (period_columns : List (Nat × PyStr)) (row : List (Option PyStr))
    (class_name : PyStr) (day : Nat) (day_name : PyStr) (floor : Nat) : List Entry :=
  PERIOD_KEYS.filterMap (emitPeriod period_columns row class_name day day_name floor)

/-- Class-row guard: first cell truthy and, after stripping, at least 2
characters; yields the stripped class name. -/
def rowClassName (row : List (Option PyStr)) : Option PyStr :=
  match row with
  | [] => none
  | c0 :: _ =>
    match c0 with
    | none => none
    | some s =>
      if s = [] then none
      else
        let cn := trimL s
        if cn = [] ∨ cn.length < 2 then none else some cn

/-- Process the data rows below the period-header row. -/
def processClassRows (period_columns : List (Nat × PyStr))
    (rows : List (List (Option PyStr))) (day : Nat) (day_name : PyStr)
    (floor : Nat) : List Entry :=
  match rows with
  | [] => []
  | r :: rs =>
    (match rowClassName r with
     | none => []
     | some cn => emitRow period_columns r cn day day_name floor) ++
      processClassRows period_columns rs day day_name floor

/-- One page of extract_schedules_from_pdf: resolve the day, locate the
period-header row, then walk the class rows below it; an unresolved day or
missing period row skips the page (no entries). -/
def processPage (table : List (List (Option PyStr))) (text : Option PyStr)
    (floor : Nat) : List Entry :=
  match resolveDay table text with
  | none => []
  | some (day_name, day_num) =>
    match findPeriodRow table with
    | none => []
    | some (pidx, pcols) =>
      processClassRows pcols (table.drop (pidx + 1)) day_num day_name floor

end Complete

/-- A Floor row. -/
structure FloorR where
  id : Nat
  name : PyStr
  number : Nat
deriving DecidableEq

/-- A Class row. -/
structure ClassR where
  id : Nat
  name : PyStr
  floorId : Nat
deriving DecidableEq

/-- A Teacher row. -/
structure TeacherR where
  id : Nat
  name : PyStr
deriving DecidableEq

/-- A Subject row. -/
structure SubjectR where
  id : Nat
  name : PyStr
deriving DecidableEq

/-- A Schedule row. -/
structure SchedR where
  id : Nat
  classId : Nat
  teacherId : Nat
  subjectId : Nat
  day : Nat
  startT : Option Time
  endT : Option Time
deriving DecidableEq

/-- The database: one list of rows per table (query order = insertion order,
matching SQLite autoincrement ids for these scripts) plus the id counters. -/
structure DB where
  floors : List FloorR
  classes : List ClassR
  teachers : List TeacherR
  subjects : List SubjectR
  schedules : List SchedR
  nextFloorId : Nat
  nextClassId : Nat
  nextTeacherId : Nat
  nextSubjectId : Nat
  nextSchedId : Nat
deriving DecidableEq

/-- An empty database with autoincrement counters at 1. -/
def emptyDB : DB := ⟨[], [], [], [], [], 1, 1, 1, 1, 1⟩

/-- Floor.query.filter_by(number=n).first(). -/
def findFloor (d : DB) (n : Nat) : Option FloorR :=
  d.floors.find? fun f => decide (f.number = n)

/-- Class.query.filter_by(name=nm, floor_id=fid).first(). -/
def findClass (d : DB) (nm : PyStr) (fid : Nat) : Option ClassR :=
  d.classes.find? fun c => decide (c.name = nm) && decide (c.floorId = fid)

/-- Teacher.query.filter_by(name=nm).first(). -/
def findTeacher (d : DB) (nm : PyStr) : Option TeacherR :=
  d.teachers.find? fun t => decide (t.name = nm)

/-- Subject.query.filter_by(name=nm).first(). -/
def findSubject (d : DB) (nm : PyStr) : Option SubjectR :=
  d.subjects.find? fun s => decide (s.name = nm)

/-- Schedule.query.filter_by on the natural key
(class_id, day_of_week, start_time, end_time).first(). -/
def findSchedule (d : DB) (cid day : Nat) (st et : Option Time) : Option SchedR :=
  d.schedules.find? fun s =>
    decide (s.classId = cid) && decide (s.day = day) &&
      decide (s.startT = st) && decide (s.endT = et)

/-- Teacher.query.get(tid): lookup by primary key. -/
def findTeacherById (d : DB) (tid : Nat) : Option TeacherR :=
  d.teachers.find? fun t => decide (t.id = tid)

/-- Subject.query.get(sid): lookup by primary key. -/
def findSubjectById (d : DB) (sid : Nat) : Option SubjectR :=
  d.subjects.find? fun s => decide (s.id = sid)

/-- Get-or-create a Floor by number; the Bool says whether a row was created. -/
def getOrCreateFloor (d : DB) (n : Nat) (nm : PyStr) : DB × FloorR × Bool :=
  match findFloor d n with
  | some f => (d, f, false)
  | none =>
    let f : FloorR := ⟨d.nextFloorId, nm, n⟩
    ({ d with floors := d.floors ++ [f], nextFloorId := d.nextFloorId + 1 }, f, true)

/-- Get-or-create a Class scoped by (name, floor). -/
def getOrCreateClass (d : DB) (nm : PyStr) (fid : Nat) : DB × ClassR × Bool :=
  match findClass d nm fid with
  | some c => (d, c, false)
  | none =>
    let c : ClassR := ⟨d.nextClassId, nm, fid⟩
    ({ d with classes := d.classes ++ [c], nextClassId := d.nextClassId + 1 }, c, true)

/-- Get-or-create a Teacher by name. -/
def getOrCreateTeacher (d : DB) (nm : PyStr) : DB × TeacherR × Bool :=
  match findTeacher d nm with
  | some t => (d, t, false)
  | none =>
    let t : TeacherR := ⟨d.nextTeacherId, nm⟩
    ({ d with teachers := d.teachers ++ [t], nextTeacherId := d.nextTeacherId + 1 }, t, true)

/-- Get-or-create a Subject by name. -/
def getOrCreateSubject (d : DB) (nm : PyStr) : DB × SubjectR × Bool :=
  match findSubject d nm with
  | some s => (d, s, false)
  | none =>
    let s : SubjectR := ⟨d.nextSubjectId, nm⟩
    ({ d with subjects := d.subjects ++ [s], nextSubjectId := d.nextSubjectId + 1 }, s, true)

/-- Insert a new Schedule row. -/
def addSchedule (d : DB) (cid tid sid day : Nat) (st et : Option Time) : DB :=
  { d with
    schedules := d.schedules ++ [⟨d.nextSchedId, cid, tid, sid, day, st, et⟩],
    nextSchedId := d.nextSchedId + 1 }

/-- The localized display name used when the import scripts create a floor. -/
def floorName (n : Nat) : PyStr := pyl "الطابق " ++ Nat.toDigits 10 n

/-- Insert into a Python set modelled as a duplicate-free list. -/
def setInsert (l : List PyStr) (x : PyStr) : List PyStr :=
  if x ∈ l then l else l ++ [x]

/-- app.delete_teacher: refuse when any Schedule references the teacher,
otherwise remove the row; the Bool reports success. -/
def delete_teacher (d : DB) (tid : Nat) : DB × Bool :=
  match findTeacherById d tid with
  | none => (d, false)
  | some t =>
    if d.schedules.any fun s => decide (s.teacherId = t.id) then (d, false)
    else ({ d with teachers := d.teachers.eraseP fun x => decide (x.id = t.id) }, true)

/-- app.delete_subject: refuse when any Schedule references the subject,
otherwise remove the row; the Bool reports success. -/
def delete_subject (d : DB) (sid : Nat) : DB × Bool :=
  match findSubjectById d sid with
  | none => (d, false)
  | some s =>
    if d.schedules.any fun x => decide (x.subjectId = s.id) then (d, false)
    else ({ d with subjects := d.subjects.eraseP fun x => decide (x.id = s.id) }, true)

namespace Complete

/-- The statistics record of import_complete_schedules.import_to_database. -/
structure CStats where
  total : Nat
  imported : Nat
  free_periods : Nat
  academic : Nat
  skipped : Nat
  classes_created : List PyStr
deriving DecidableEq

/-- Delete all Schedule rows belonging to Classes under the floor. -/
def clearFloor (d : DB) (fid : Nat) : DB :=
  { d with
    schedules := d.schedules.filter fun s =>
      !(d.classes.any fun c => decide (c.floorId = fid) && decide (c.id = s.classId)) }

/-- One loop iteration of import_to_database: resolve or create the class,
resolve teacher and subject (the shared sentinels when the entry is free),
skip when the natural key already exists, otherwise insert. -/
def importStep (fid ntid fsid : Nat) (acc : DB × CStats) (e : Entry) : DB × CStats :=
  let d := acc.1
  let s := acc.2
  let rc := getOrCreateClass d e.class_name fid
  let d1 := rc.1
  let cls := rc.2.1
  let s1 := if rc.2.2 then { s with classes_created := setInsert s.classes_created e.class_name }
            else s
  let rts : DB × Nat × Nat :=
    if e.is_free then (d1, ntid, fsid)
    else
      let rt := getOrCreateTeacher d1 e.teacher
      let rs := getOrCreateSubject rt.1 e.subject
      (rs.1, rt.2.1.id, rs.2.1.id)
  let d2 := rts.1
  match findSchedule d2 cls.id e.day e.startT e.endT with
  | some _ => (d2, { s1 with skipped := s1.skipped + 1 })
  | none =>
    (addSchedule d2 cls.id rts.2.1 rts.2.2 e.day e.startT e.endT,
     { s1 with
       imported := s1.imported + 1,
       free_periods := s1.free_periods + (if e.is_free then 1 else 0),
       academic := s1.academic + (if e.is_free then 0 else 1) })

/-- import_complete_schedules.import_to_database: resolve the floor, clear
its schedules when asked, resolve the Free Period and No Teacher sentinels,
then run the entry loop. -/
def import_to_database (schedules : List Entry) (floor_number : Nat)
    (clear_existing : Bool) (d : DB) : DB × CStats :=
  let r1 := getOrCreateFloor d floor_number (floorName floor_number)
  let floor := r1.2.1
  let d2 := if clear_existing then clearFloor r1.1 floor.id else r1.1
  let r2 := getOrCreateSubject d2 (pyl "Free Period")
  let r3 := getOrCreateTeacher r2.1 (pyl "No Teacher")
  List.foldl (importStep floor.id r3.2.1.id r2.2.1.id)
    (r3.1, ⟨schedules.length, 0, 0, 0, 0, []⟩) schedules

end Complete

namespace Pdf

/-- A raw entry fed to import_schedule_from_pdf.import_schedule_to_database:
every field can be absent (dict.get semantics). -/
structure PdfEntry where
  day : Option Nat
  startT : Option Time
  endT : Option Time
  class_name : Option PyStr
  teacher : Option PyStr
  subject : Option PyStr
deriving DecidableEq

/-- The statistics record of import_schedule_to_database (all counters). -/
structure PStats where
  processed : Nat
  imported : Nat
  skipped : Nat
  errors : Nat
  classes_created : Nat
  teachers_created : Nat
  subjects_created : Nat
deriving DecidableEq

/-- Python truthiness for an optional string: None and the empty string are
falsy. -/
def truthyStr : Option PyStr → Option PyStr
  | none => none
  | some s => if s = [] then none else some s

/-- One loop iteration of import_schedule_to_database: validate day, times,
class name, teacher and subject in that order (each failure increments the
shared skipped counter and moves on; class resolution happens before the
teacher and subject checks), then skip natural-key duplicates, also through
the shared skipped counter, and otherwise insert. -/
def step (fid : Nat) (acc : DB × PStats) (e : PdfEntry) : DB × PStats :=
  let d := acc.1
  let s := { acc.2 with processed := acc.2.processed + 1 }
  match e.day with
  | none => (d, { s with skipped := s.skipped + 1 })
  | some day =>
    if e.startT.isNone || e.endT.isNone then (d, { s with skipped := s.skipped + 1 })
    else
      match truthyStr e.class_name with
      | none => (d, { s with skipped := s.skipped + 1 })
      | some cn =>
        let rc := getOrCreateClass d cn fid
        let d1 := rc.1
        let cls := rc.2.1
        let s1 := if rc.2.2 then { s with classes_created := s.classes_created + 1 } else s
        match truthyStr e.teacher with
        | none => (d1, { s1 with skipped := s1.skipped + 1 })
        | some tn =>
          let rt := getOrCreateTeacher d1 tn
          let d2 := rt.1
          let s2 := if rt.2.2 then { s1 with teachers_created := s1.teachers_created + 1 }
                    else s1
          match truthyStr e.subject with
          | none => (d2, { s2 with skipped := s2.skipped + 1 })
          | some sn =>
            let rs := getOrCreateSubject d2 sn
            let d3 := rs.1
            let s3 := if rs.2.2 then { s2 with subjects_created := s2.subjects_created + 1 }
                      else s2
            match findSchedule d3 cls.id day e.startT e.endT with
            | some _ => (d3, { s3 with skipped := s3.skipped + 1 })
            | none =>
              (addSchedule d3 cls.id rt.2.1.id rs.2.1.id day e.startT e.endT,
               { s3 with imported := s3.imported + 1 })

/-- import_schedule_from_pdf.import_schedule_to_database: resolve the floor
then run the entry loop. -/
def import_schedule_to_database (schedules : List PdfEntry) (floor_number : Nat)
    (d : DB) : DB × PStats :=
  let r1 := getOrCreateFloor d floor_number (floorName floor_number)
  List.foldl (step r1.2.1.id) (r1.1, ⟨0, 0, 0, 0, 0, 0, 0⟩) schedules

end Pdf

namespace Smart

/-- The statistics record of import_schedule_smart.import_to_database. -/
structure SStats where
  total : Nat
  imported : Nat
  skipped : Nat
  errors : Nat
  classes_created : List PyStr
  teachers_created : List PyStr
  subjects_created : List PyStr
deriving DecidableEq

/-- State after completing the first k committed units of one entry of
import_to_database (0 = nothing, 1 = class get-or-create committed, 2 = also
teacher, 3 = also subject). Each unit commits as soon as it runs in the
source, so a persistence failure during unit k+1 followed by
db.session.rollback() leaves exactly this state. -/
def entryPrefix (fid : Nat) (e : Entry) (k : Nat) (d : DB) (s : SStats) : DB × SStats :=
  if k = 0 then (d, s)
  else
    let rc := getOrCreateClass d e.class_name fid
    let s1 := if rc.2.2 then
                { s with classes_created := setInsert s.classes_created e.class_name }
              else s
    if k = 1 then (rc.1, s1)
    else
      let rt := getOrCreateTeacher rc.1 e.teacher
      let s2 := if rt.2.2 then
                  { s1 with teachers_created := setInsert s1.teachers_created e.teacher }
                else s1
      if k = 2 then (rt.1, s2)
      else
        let rs := getOrCreateSubject rt.1 e.subject
        let s3 := if rs.2.2 then
                    { s2 with subjects_created := setInsert s2.subjects_created e.subject }
                  else s2
        (rs.1, s3)

/-- One loop iteration of import_to_database, with an injected persistence
fault: some k models an exception raised during atomic unit k (clamped to
the final unit), caught by the except branch, which rolls the open
transaction back (leaving the committed prefix) and counts an error; none is
the fault-free path. -/
def step (fid : Nat) (acc : DB × SStats) (pe : Entry × Option Nat) : DB × SStats :=
  match pe.2 with
  | some k =>
    let p := entryPrefix fid pe.1 (min k 3) acc.1 acc.2
    (p.1, { p.2 with errors := p.2.errors + 1 })
  | none =>
    let e := pe.1
    let d := acc.1
    let s := acc.2
    let rc := getOrCreateClass d e.class_name fid
    let s1 := if rc.2.2 then
                { s with classes_created := setInsert s.classes_created e.class_name }
              else s
    let rt := getOrCreateTeacher rc.1 e.teacher
    let s2 := if rt.2.2 then
                { s1 with teachers_created := setInsert s1.teachers_created e.teacher }
              else s1
    let rs := getOrCreateSubject rt.1 e.subject
    let s3 := if rs.2.2 then
                { s2 with subjects_created := setInsert s2.subjects_created e.subject }
              else s2
    match findSchedule rs.1 rc.2.1.id e.day e.startT e.endT with
    | some _ => (rs.1, { s3 with skipped := s3.skipped + 1 })
    | none =>
      (addSchedule rs.1 rc.2.1.id rt.2.1.id rs.2.1.id e.day e.startT e.endT,
       { s3 with imported := s3.imported + 1 })

/-- import_schedule_smart.import_to_database under the injected-fault model:
resolve the floor, then run the entry loop; each entry is paired with its
optional fault point. -/
def import_to_database_f (schedules : List (Entry × Option Nat)) (floor_number : Nat)
    (d : DB) : DB × SStats :=
  let r1 := getOrCreateFloor d floor_number (floorName floor_number)
  List.foldl (step r1.2.1.id)
    (r1.1, ⟨schedules.length, 0, 0, 0, [], [], []⟩) schedules

end Smart

/-- The first database extends to the second: every table of the second is
the first one's table with rows appended at the end (the only way the import
loops grow the store). -/
def DBExt (d d2 : DB) : Prop :=
  d.floors <+: d2.floors ∧ d.classes <+: d2.classes ∧ d.teachers <+: d2.teachers ∧
    d.subjects <+: d2.subjects ∧ d.schedules <+: d2.schedules

/-- The persistent footprint one complete-import entry leaves behind: its
teacher and subject resolve (unless the entry is free, which uses the shared
sentinels), its class resolves, and a Schedule row with its natural key
exists. -/
def entryDone (d : DB) (fid : Nat) (e : Entry) : Prop :=
  (e.is_free = true ∨ ((findTeacher d e.teacher).isSome ∧ (findSubject d e.subject).isSome)) ∧
    ∃ c, findClass d e.class_name fid = some c ∧
      (findSchedule d c.id e.day e.startT e.endT).isSome

/-! ## Generic list lemmas -/

theorem find?_append_some {α : Type} {p : α → Bool} {l r : List α} {x : α}
    (h : l.find? p = some x) : (l ++ r).find? p = some x := by
  rw [List.find?_append, h]; rfl

theorem find?_append_none {α : Type} {p : α → Bool} {l r : List α}
    (h : l.find? p = none) : (l ++ r).find? p = r.find? p := by
  rw [List.find?_append, h]; rfl

theorem find?_prefix_some {α : Type} {p : α → Bool} {l l2 : List α} {x : α}
    (hp : l <+: l2) (h : l.find? p = some x) : l2.find? p = some x := by
  obtain ⟨t, rfl⟩ := hp
  exact find?_append_some h

theorem find?_prefix_isSome {α : Type} {p : α → Bool} {l l2 : List α}
    (hp : l <+: l2) (h : (l.find? p).isSome) : (l2.find? p).isSome := by
  obtain ⟨x, hx⟩ := Option.isSome_iff_exists.mp h
  rw [find?_prefix_some hp hx]; rfl

theorem find?_append_singleton_isSome {α : Type} {p : α → Bool} {l : List α} {x : α}
    (hx : p x = true) : ((l ++ [x]).find? p).isSome := by
  cases h : l.find? p with
  | some y => rw [find?_append_some h]; rfl
  | none => rw [find?_append_none h, List.find?_cons_of_pos _ hx]; rfl

theorem filterMap_length_of_isSome {α β : Type} {f : α → Option β} {l : List α}
    (h : ∀ a ∈ l, (f a).isSome) : (l.filterMap f).length = l.length := by
  induction l with
  | nil => rfl
  | cons a t ih =>
    obtain ⟨b, hb⟩ := Option.isSome_iff_exists.mp (h a (List.mem_cons_self a t))
    rw [List.filterMap_cons, hb, List.length_cons, ih fun x hx => h x (List.mem_cons_of_mem a hx)]
    rfl

theorem filterMap_map_retract {α β : Type} {f : α → Option β} {g : β → α} {l : List α}
    (h : ∀ a ∈ l, ∃ b, f a = some b ∧ g b = a) : (l.filterMap f).map g = l := by
  induction l with
  | nil => rfl
  | cons a t ih =>
    obtain ⟨b, hb, hg⟩ := h a (List.mem_cons_self a t)
    rw [List.filterMap_cons, hb, List.map_cons, hg,
      ih fun x hx => h x (List.mem_cons_of_mem a hx)]

theorem dropWhile_length_le {α : Type} (p : α → Bool) (l : List α) :
    (l.dropWhile p).length ≤ l.length := by
  induction l with
  | nil => exact Nat.le_refl 0
  | cons a t ih =>
    rw [List.dropWhile_cons]
    by_cases hpa : p a = true
    · simp only [hpa, if_true]
      exact Nat.le_trans ih (Nat.le_succ _)
    · simp only [hpa, if_false]
      exact Nat.le_refl _

theorem mem_dropWhile_of_not {α : Type} {p : α → Bool} {c : α} {l : List α}
    (hm : c ∈ l) (hc : p c = false) : c ∈ l.dropWhile p := by
  induction l with
  | nil => cases hm
  | cons a t ih =>
    rw [List.dropWhile_cons]
    rcases List.mem_cons.mp hm with rfl | hmt
    · simp [hc]
    · by_cases hpa : p a = true
      · simp only [hpa, if_true]
        exact ih hmt
      · simp only [hpa, if_false]
        exact List.mem_cons_of_mem a hmt

theorem dropWhile_exists_not {α : Type} {p : α → Bool} {l : List α}
    (h : l.dropWhile p ≠ []) : ∃ c ∈ l.dropWhile p, p c = false := by
  induction l with
  | nil => exact absurd rfl h
  | cons a t ih =>
    rw [List.dropWhile_cons] at h ⊢
    by_cases hpa : p a = true
    · simp only [hpa, if_true] at h ⊢
      exact ih h
    · simp only [hpa, if_false]
      exact ⟨a, List.mem_cons_self a t, Bool.eq_false_iff.mpr hpa⟩

/-! ## Trim, join and line lemmas -/

theorem trimL_length_le (l : PyStr) : (trimL l).length ≤ l.length := by
  unfold trimL
  rw [List.length_reverse]
  calc ((l.dropWhile isSpaceP).reverse.dropWhile isSpaceP).length
      ≤ (l.dropWhile isSpaceP).reverse.length := dropWhile_length_le _ _
    _ = (l.dropWhile isSpaceP).length := List.length_reverse _
    _ ≤ l.length := dropWhile_length_le _ _

theorem trimL_exists_nonspace {l : PyStr} (h : trimL l ≠ []) :
    ∃ c ∈ trimL l, isSpaceP c = false := by
  unfold trimL at h ⊢
  have h2 : (l.dropWhile isSpaceP).reverse.dropWhile isSpaceP ≠ [] := by
    intro hh
    exact h (by rw [hh]; rfl)
  obtain ⟨c, hc, hcf⟩ := dropWhile_exists_not h2
  exact ⟨c, List.mem_reverse.mpr hc, hcf⟩

theorem trimL_ne_nil_of_exists {l : PyStr} (h : ∃ c ∈ l, isSpaceP c = false) :
    trimL l ≠ [] := by
  obtain ⟨c, hm, hc⟩ := h
  unfold trimL
  intro hh
  have h1 : c ∈ l.dropWhile isSpaceP := mem_dropWhile_of_not hm hc
  have h2 : c ∈ (l.dropWhile isSpaceP).reverse := List.mem_reverse.mpr h1
  have h3 : c ∈ (l.dropWhile isSpaceP).reverse.dropWhile isSpaceP :=
    mem_dropWhile_of_not h2 hc
  rw [List.reverse_eq_nil_iff.mp hh] at h3
  cases h3

theorem pyLines_mem_props {t x : PyStr} (h : x ∈ pyLines t) :
    x ≠ [] ∧ ∃ c ∈ x, isSpaceP c = false := by
  obtain ⟨a, _, ha⟩ := List.mem_filterMap.mp h
  dsimp only at ha
  by_cases he : trimL a = []
  · rw [if_pos he] at ha
    cases ha
  · rw [if_neg he] at ha
    obtain rfl := Option.some.inj ha
    exact ⟨he, trimL_exists_nonspace he⟩

theorem joinSp_ne_nil {y : PyStr} {ys : List PyStr} (h : y ≠ []) : joinSp (y :: ys) ≠ [] := by
  cases ys with
  | nil => exact h
  | cons z t =>
    show y ++ ' ' :: joinSp (z :: t) ≠ []
    intro hh
    exact absurd (List.append_eq_nil.mp hh).1 h

theorem joinSp_nonspace {y : PyStr} {ys : List PyStr}
    (h : ∃ c ∈ y, isSpaceP c = false) : ∃ c ∈ joinSp (y :: ys), isSpaceP c = false := by
  obtain ⟨c, hm, hc⟩ := h
  cases ys with
  | nil => exact ⟨c, hm, hc⟩
  | cons z t =>
    exact ⟨c, List.mem_append_left _ hm, hc⟩

/-! ## Database extension and get-or-create lemmas -/

theorem dbExt_refl (d : DB) : DBExt d d :=
  ⟨List.prefix_refl _, List.prefix_refl _, List.prefix_refl _, List.prefix_refl _,
   List.prefix_refl _⟩

theorem dbExt_trans {a b c : DB} (h1 : DBExt a b) (h2 : DBExt b c) : DBExt a c :=
  ⟨h1.1.trans h2.1, h1.2.1.trans h2.2.1, h1.2.2.1.trans h2.2.2.1,
   h1.2.2.2.1.trans h2.2.2.2.1, h1.2.2.2.2.trans h2.2.2.2.2⟩

theorem getOrCreateFloor_ext (d : DB) (n : Nat) (nm : PyStr) :
    DBExt d (getOrCreateFloor d n nm).1 := by
  unfold getOrCreateFloor
  cases h : findFloor d n with
  | some f => exact dbExt_refl d
  | none =>
    exact ⟨List.prefix_append _ _, List.prefix_refl _, List.prefix_refl _,
      List.prefix_refl _, List.prefix_refl _⟩

theorem getOrCreateClass_ext (d : DB) (nm : PyStr) (fid : Nat) :
    DBExt d (getOrCreateClass d nm fid).1 := by
  unfold getOrCreateClass
  cases h : findClass d nm fid with
  | some c => exact dbExt_refl d
  | none =>
    exact ⟨List.prefix_refl _, List.prefix_append _ _, List.prefix_refl _,
      List.prefix_refl _, List.prefix_refl _⟩

theorem getOrCreateTeacher_ext (d : DB) (nm : PyStr) :
    DBExt d (getOrCreateTeacher d nm).1 := by
  unfold getOrCreateTeacher
  cases h : findTeacher d nm with
  | some t => exact dbExt_refl d
  | none =>
    exact ⟨List.prefix_refl _, List.prefix_refl _, List.prefix_append _ _,
      List.prefix_refl _, List.prefix_refl _⟩

theorem getOrCreateSubject_ext (d : DB) (nm : PyStr) :
    DBExt d (getOrCreateSubject d nm).1 := by
  unfold getOrCreateSubject
  cases h : findSubject d nm with
  | some s => exact dbExt_refl d
  | none =>
    exact ⟨List.prefix_refl _, List.prefix_refl _, List.prefix_refl _,
      List.prefix_append _ _, List.prefix_refl _⟩

theorem addSchedule_ext (d : DB) (cid tid sid day : Nat) (st et : Option Time) :
    DBExt d (addSchedule d cid tid sid day st et) :=
  ⟨List.prefix_refl _, List.prefix_refl _, List.prefix_refl _, List.prefix_refl _,
   List.prefix_append _ _⟩

theorem getOrCreateFloor_of_found {d : DB} {n : Nat} {f : FloorR} (nm : PyStr)
    (h : findFloor d n = some f) : getOrCreateFloor d n nm = (d, f, false) := by
  unfold getOrCreateFloor
  rw [h]

theorem getOrCreateClass_of_found {d : DB} {nm : PyStr} {fid : Nat} {c : ClassR}
    (h : findClass d nm fid = some c) : getOrCreateClass d nm fid = (d, c, false) := by
  unfold getOrCreateClass
  rw [h]

theorem getOrCreateTeacher_of_found {d : DB} {nm : PyStr} {t : TeacherR}
    (h : findTeacher d nm = some t) : getOrCreateTeacher d nm = (d, t, false) := by
  unfold getOrCreateTeacher
  rw [h]

theorem getOrCreateSubject_of_found {d : DB} {nm : PyStr} {s : SubjectR}
    (h : findSubject d nm = some s) : getOrCreateSubject d nm = (d, s, false) := by
  unfold getOrCreateSubject
  rw [h]

theorem getOrCreateFloor_find (d : DB) (n : Nat) (nm : PyStr) :
    findFloor (getOrCreateFloor d n nm).1 n = some (getOrCreateFloor d n nm).2.1 := by
  cases h : findFloor d n with
  | some f => simp [getOrCreateFloor, h]
  | none =>
    simp only [getOrCreateFloor, h]
    unfold findFloor at h ⊢
    rw [find?_append_none h, List.find?_cons_of_pos _ (by simp)]

theorem getOrCreateClass_find (d : DB) (nm : PyStr) (fid : Nat) :
    findClass (getOrCreateClass d nm fid).1 nm fid = some (getOrCreateClass d nm fid).2.1 := by
  cases h : findClass d nm fid with
  | some c => simp [getOrCreateClass, h]
  | none =>
    simp only [getOrCreateClass, h]
    unfold findClass at h ⊢
    rw [find?_append_none h, List.find?_cons_of_pos _ (by simp)]

theorem getOrCreateTeacher_find (d : DB) (nm : PyStr) :
    findTeacher (getOrCreateTeacher d nm).1 nm = some (getOrCreateTeacher d nm).2.1 := by
  cases h : findTeacher d nm with
  | some t => simp [getOrCreateTeacher, h]
  | none =>
    simp only [getOrCreateTeacher, h]
    unfold findTeacher at h ⊢
    rw [find?_append_none h, List.find?_cons_of_pos _ (by simp)]

theorem getOrCreateSubject_find (d : DB) (nm : PyStr) :
    findSubject (getOrCreateSubject d nm).1 nm = some (getOrCreateSubject d nm).2.1 := by
  cases h : findSubject d nm with
  | some s => simp [getOrCreateSubject, h]
  | none =>
    simp only [getOrCreateSubject, h]
    unfold findSubject at h ⊢
    rw [find?_append_none h, List.find?_cons_of_pos _ (by simp)]

theorem findFloor_mono {d d2 : DB} {n : Nat} {f : FloorR} (hx : DBExt d d2)
    (h : findFloor d n = some f) : findFloor d2 n = some f :=
  find?_prefix_some hx.1 h

theorem findClass_mono {d d2 : DB} {nm : PyStr} {fid : Nat} {c : ClassR} (hx : DBExt d d2)
    (h : findClass d nm fid = some c) : findClass d2 nm fid = some c :=
  find?_prefix_some hx.2.1 h

theorem findTeacher_mono {d d2 : DB} {nm : PyStr} {t : TeacherR} (hx : DBExt d d2)
    (h : findTeacher d nm = some t) : findTeacher d2 nm = some t :=
  find?_prefix_some hx.2.2.1 h

theorem findSubject_mono {d d2 : DB} {nm : PyStr} {s : SubjectR} (hx : DBExt d d2)
    (h : findSubject d nm = some s) : findSubject d2 nm = some s :=
  find?_prefix_some hx.2.2.2.1 h

theorem findTeacher_mono_isSome {d d2 : DB} {nm : PyStr} (hx : DBExt d d2)
    (h : (findTeacher d nm).isSome) : (findTeacher d2 nm).isSome :=
  find?_prefix_isSome hx.2.2.1 h

theorem findSubject_mono_isSome {d d2 : DB} {nm : PyStr} (hx : DBExt d d2)
    (h : (findSubject d nm).isSome) : (findSubject d2 nm).isSome :=
  find?_prefix_isSome hx.2.2.2.1 h

theorem findSchedule_mono_isSome {d d2 : DB} {cid day : Nat} {st et : Option Time}
    (hx : DBExt d d2) (h : (findSchedule d cid day st et).isSome) :
    (findSchedule d2 cid day st et).isSome :=
  find?_prefix_isSome hx.2.2.2.2 h

theorem findSchedule_addSchedule (d : DB) (cid tid sid day : Nat) (st et : Option Time) :
    (findSchedule (addSchedule d cid tid sid day st et) cid day st et).isSome := by
  unfold findSchedule addSchedule
  exact find?_append_singleton_isSome (by simp)

/-! ## Complete importer: idempotence infrastructure -/

theorem importStep_ext (fid ntid fsid : Nat) (acc : DB × Complete.CStats) (e : Entry) :
    DBExt acc.1 (Complete.importStep fid ntid fsid acc e).1 := by
  unfold Complete.importStep
  have hc := getOrCreateClass_ext acc.1 e.class_name fid
  cases hf : e.is_free with
  | true =>
    simp only [hf, if_true]
    cases hs : findSchedule (getOrCreateClass acc.1 e.class_name fid).1
        (getOrCreateClass acc.1 e.class_name fid).2.1.id e.day e.startT e.endT with
    | some _ => simpa [hs] using hc
    | none =>
      simp only [hs]
      exact dbExt_trans hc (addSchedule_ext _ _ _ _ _ _ _)
  | false =>
    simp only [hf, Bool.false_eq_true, if_false]
    have ht := getOrCreateTeacher_ext (getOrCreateClass acc.1 e.class_name fid).1 e.teacher
    have hsb := getOrCreateSubject_ext
      (getOrCreateTeacher (getOrCreateClass acc.1 e.class_name fid).1 e.teacher).1 e.subject
    have hchain := dbExt_trans hc (dbExt_trans ht hsb)
    cases hs : findSchedule
        (getOrCreateSubject
          (getOrCreateTeacher (getOrCreateClass acc.1 e.class_name fid).1 e.teacher).1
          e.subject).1
        (getOrCreateClass acc.1 e.class_name fid).2.1.id e.day e.startT e.endT with
    | some _ => simpa [hs] using hchain
    | none =>
      simp only [hs]
      exact dbExt_trans hchain (addSchedule_ext _ _ _ _ _ _ _)

theorem entryDone_mono {d d2 : DB} {fid : Nat} {e : Entry} (hx : DBExt d d2)
    (h : entryDone d fid e) : entryDone d2 fid e := by
  obtain ⟨hts, c, hc, hs⟩ := h
  refine ⟨?_, c, findClass_mono hx hc, findSchedule_mono_isSome hx hs⟩
  rcases hts with h1 | ⟨ht, hsub⟩
  · exact Or.inl h1
  · exact Or.inr ⟨findTeacher_mono_isSome hx ht, findSubject_mono_isSome hx hsub⟩

theorem importStep_done (fid ntid fsid : Nat) (acc : DB × Complete.CStats) (e : Entry) :
    entryDone (Complete.importStep fid ntid fsid acc e).1 fid e := by
  unfold Complete.importStep
  have hcls := getOrCreateClass_find acc.1 e.class_name fid
  cases hf : e.is_free with
  | true =>
    simp only [hf, if_true]
    cases hs : findSchedule (getOrCreateClass acc.1 e.class_name fid).1
        (getOrCreateClass acc.1 e.class_name fid).2.1.id e.day e.startT e.endT with
    | some x =>
      simp only [hs]
      exact ⟨Or.inl hf, _, hcls, by rw [hs]; rfl⟩
    | none =>
      simp only [hs]
      refine ⟨Or.inl hf, _,
        findClass_mono (addSchedule_ext _ _ _ _ _ _ _) hcls, ?_⟩
      exact findSchedule_addSchedule _ _ _ _ _ _ _
  | false =>
    simp only [hf, Bool.false_eq_true, if_false]
    have ht := getOrCreateTeacher_find (getOrCreateClass acc.1 e.class_name fid).1 e.teacher
    have hsb := getOrCreateSubject_find
      (getOrCreateTeacher (getOrCreateClass acc.1 e.class_name fid).1 e.teacher).1 e.subject
    have hsb_ext := getOrCreateSubject_ext
      (getOrCreateTeacher (getOrCreateClass acc.1 e.class_name fid).1 e.teacher).1 e.subject
    have ht2 : (findTeacher
        (getOrCreateSubject
          (getOrCreateTeacher (getOrCreateClass acc.1 e.class_name fid).1 e.teacher).1
          e.subject).1 e.teacher).isSome := by
      rw [findTeacher_mono hsb_ext ht]; rfl
    have hsb2 : (findSubject
        (getOrCreateSubject
          (getOrCreateTeacher (getOrCreateClass acc.1 e.class_name fid).1 e.teacher).1
          e.subject).1 e.subject).isSome := by
      rw [hsb]; rfl
    have hcls2 := findClass_mono
      (dbExt_trans (getOrCreateTeacher_ext _ e.teacher) hsb_ext) hcls
    cases hs : findSchedule
        (getOrCreateSubject
          (getOrCreateTeacher (getOrCreateClass acc.1 e.class_name fid).1 e.teacher).1
          e.subject).1
        (getOrCreateClass acc.1 e.class_name fid).2.1.id e.day e.startT e.endT with
    | some x =>
      simp only [hs]
      exact ⟨Or.inr ⟨ht2, hsb2⟩, _, hcls2, by rw [hs]; rfl⟩
    | none =>
      simp only [hs]
      refine ⟨Or.inr ⟨findTeacher_mono_isSome (addSchedule_ext _ _ _ _ _ _ _) ht2,
        findSubject_mono_isSome (addSchedule_ext _ _ _ _ _ _ _) hsb2⟩,
        _, findClass_mono (addSchedule_ext _ _ _ _ _ _ _) hcls2, ?_⟩
      exact findSchedule_addSchedule _ _ _ _ _ _ _

theorem foldl_importStep_ext (fid ntid fsid : Nat) :
    ∀ (es : List Entry) (acc : DB × Complete.CStats),
      DBExt acc.1 (List.foldl (Complete.importStep fid ntid fsid) acc es).1 := by
  intro es
  induction es with
  | nil => intro acc; exact dbExt_refl _
  | cons a t ih =>
    intro acc
    rw [List.foldl_cons]
    exact dbExt_trans (importStep_ext fid ntid fsid acc a) (ih _)

theorem foldl_importStep_done (fid ntid fsid : Nat) :
    ∀ (es : List Entry) (acc : DB × Complete.CStats) (e : Entry), e ∈ es →
      entryDone ((List.foldl (Complete.importStep fid ntid fsid) acc es).1) fid e := by
  intro es
  induction es with
  | nil => intro acc e h; cases h
  | cons a t ih =>
    intro acc e h
    rw [List.foldl_cons]
    rcases List.mem_cons.mp h with rfl | hmt
    · exact entryDone_mono (foldl_importStep_ext fid ntid fsid t _)
        (importStep_done fid ntid fsid acc e)
    · exact ih _ e hmt

theorem importStep_skip {fid ntid fsid : Nat} {acc : DB × Complete.CStats} {e : Entry}
    (h : entryDone acc.1 fid e) :
    Complete.importStep fid ntid fsid acc e =
      (acc.1, { acc.2 with skipped := acc.2.skipped + 1 }) := by
  obtain ⟨hts, c, hc, hs⟩ := h
  obtain ⟨sch, hsch⟩ := Option.isSome_iff_exists.mp hs
  simp only [Complete.importStep]
  rw [getOrCreateClass_of_found hc]
  cases hf : e.is_free with
  | true =>
    simp only [hf, if_true]
    rw [hsch]
    simp
  | false =>
    rcases hts with h1 | ⟨ht, hsub⟩
    · rw [hf] at h1; cases h1
    obtain ⟨t, ht'⟩ := Option.isSome_iff_exists.mp ht
    obtain ⟨sb, hsb'⟩ := Option.isSome_iff_exists.mp hsub
    simp only [hf, Bool.false_eq_true, if_false]
    rw [getOrCreateTeacher_of_found ht']
    simp only
    rw [getOrCreateSubject_of_found hsb']
    simp only
    rw [hsch]

theorem foldl_importStep_skip {fid ntid fsid : Nat} {d : DB} :
    ∀ (es : List Entry) (s : Complete.CStats), (∀ e ∈ es, entryDone d fid e) →
      List.foldl (Complete.importStep fid ntid fsid) (d, s) es =
        (d, { s with skipped := s.skipped + es.length }) := by
  intro es
  induction es with
  | nil => intro s _; rfl
  | cons a t ih =>
    intro s h
    rw [List.foldl_cons, importStep_skip (h a (List.mem_cons_self a t))]
    rw [ih _ fun e he => h e (List.mem_cons_of_mem a he)]
    have harith : s.skipped + 1 + t.length = s.skipped + (a :: t).length := by
      rw [List.length_cons]
      omega
    rw [harith]

theorem import_run_of_resolved {d : DB} {n : Nat} {f : FloorR} {fs : SubjectR}
    {nt : TeacherR} {entries : List Entry}
    (hA : findFloor d n = some f)
    (hB : findSubject d (pyl "Free Period") = some fs)
    (hC : findTeacher d (pyl "No Teacher") = some nt)
    (hdone : ∀ e ∈ entries, entryDone d f.id e) :
    Complete.import_to_database entries n false d =
      (d, ⟨entries.length, 0, 0, 0, entries.length, []⟩) := by
  simp only [Complete.import_to_database]
  rw [getOrCreateFloor_of_found (floorName n) hA]
  simp only [Bool.false_eq_true, if_false]
  rw [getOrCreateSubject_of_found hB]
  simp only
  rw [getOrCreateTeacher_of_found hC]
  simp only
  rw [foldl_importStep_skip entries _ hdone]
  simp

theorem import_run_fix (entries : List Entry) (n : Nat) (d0 : DB) :
    Complete.import_to_database entries n false
        ((Complete.import_to_database entries n false d0).1)
      = ((Complete.import_to_database entries n false d0).1,
         ⟨entries.length, 0, 0, 0, entries.length, []⟩) := by
  set A := getOrCreateFloor d0 n (floorName n) with hAdef
  set B := getOrCreateSubject A.1 (pyl "Free Period") with hBdef
  set C := getOrCreateTeacher B.1 (pyl "No Teacher") with hCdef
  have hface : Complete.import_to_database entries n false d0 =
      List.foldl (Complete.importStep A.2.1.id C.2.1.id B.2.1.id)
        (C.1, ⟨entries.length, 0, 0, 0, 0, []⟩) entries := rfl
  have hkey : (Complete.import_to_database entries n false d0).1 =
      (List.foldl (Complete.importStep A.2.1.id C.2.1.id B.2.1.id)
        (C.1, (⟨entries.length, 0, 0, 0, 0, []⟩ : Complete.CStats)) entries).1 := by
    rw [hface]
  rw [hkey]
  have extAB : DBExt A.1 B.1 := getOrCreateSubject_ext A.1 (pyl "Free Period")
  have extBC : DBExt B.1 C.1 := getOrCreateTeacher_ext B.1 (pyl "No Teacher")
  have extCD : DBExt C.1
      (List.foldl (Complete.importStep A.2.1.id C.2.1.id B.2.1.id)
        (C.1, (⟨entries.length, 0, 0, 0, 0, []⟩ : Complete.CStats)) entries).1 :=
    foldl_importStep_ext A.2.1.id C.2.1.id B.2.1.id entries
      (C.1, (⟨entries.length, 0, 0, 0, 0, []⟩ : Complete.CStats))
  have hA1 : findFloor A.1 n = some A.2.1 := getOrCreateFloor_find d0 n (floorName n)
  have hB1 : findSubject B.1 (pyl "Free Period") = some B.2.1 :=
    getOrCreateSubject_find A.1 (pyl "Free Period")
  have hC1 : findTeacher C.1 (pyl "No Teacher") = some C.2.1 :=
    getOrCreateTeacher_find B.1 (pyl "No Teacher")
  have hA2 := findFloor_mono (dbExt_trans extAB (dbExt_trans extBC extCD)) hA1
  have hB2 := findSubject_mono (dbExt_trans extBC extCD) hB1
  have hC2 := findTeacher_mono extCD hC1
  have hdone : ∀ e ∈ entries,
      entryDone (List.foldl (Complete.importStep A.2.1.id C.2.1.id B.2.1.id)
        (C.1, (⟨entries.length, 0, 0, 0, 0, []⟩ : Complete.CStats)) entries).1 A.2.1.id e :=
    fun e he => foldl_importStep_done A.2.1.id C.2.1.id B.2.1.id entries _ e he
  exact import_run_of_resolved hA2 hB2 hC2 hdone

/-! ## Pdf importer: validation and duplicate skip lemmas -/

theorem pdfStep_day_none {fid : Nat} {d : DB} {s : Pdf.PStats} {e : Pdf.PdfEntry}
    (h : e.day = none) :
    Pdf.step fid (d, s) e =
      (d, { s with processed := s.processed + 1, skipped := s.skipped + 1 }) := by
  simp [Pdf.step, h]

theorem pdfStep_teacher_missing {fid : Nat} {d : DB} {s : Pdf.PStats} {e : Pdf.PdfEntry}
    {day : Nat} {cn : PyStr} {c : ClassR}
    (hd : e.day = some day) (hst : e.startT.isNone = false) (het : e.endT.isNone = false)
    (hcn : Pdf.truthyStr e.class_name = some cn)
    (hcls : findClass d cn fid = some c)
    (htn : Pdf.truthyStr e.teacher = none) :
    Pdf.step fid (d, s) e =
      (d, { s with processed := s.processed + 1, skipped := s.skipped + 1 }) := by
  simp only [Pdf.step, hd, hst, het, Bool.or_self, Bool.false_eq_true, if_false, hcn]
  rw [getOrCreateClass_of_found hcls]
  simp only [Bool.false_eq_true, if_false, htn]

theorem pdfStep_duplicate {fid : Nat} {d : DB} {s : Pdf.PStats} {e : Pdf.PdfEntry}
    {day : Nat} {cn tn sn : PyStr} {c : ClassR} {t : TeacherR} {sb : SubjectR} {sch : SchedR}
    (hd : e.day = some day) (hst : e.startT.isNone = false) (het : e.endT.isNone = false)
    (hcn : Pdf.truthyStr e.class_name = some cn)
    (hcls : findClass d cn fid = some c)
    (htn : Pdf.truthyStr e.teacher = some tn)
    (hteach : findTeacher d tn = some t)
    (hsn : Pdf.truthyStr e.subject = some sn)
    (hsub : findSubject d sn = some sb)
    (hdup : findSchedule d c.id day e.startT e.endT = some sch) :
    Pdf.step fid (d, s) e =
      (d, { s with processed := s.processed + 1, skipped := s.skipped + 1 }) := by
  simp only [Pdf.step, hd, hst, het, Bool.or_self, Bool.false_eq_true, if_false, hcn]
  rw [getOrCreateClass_of_found hcls]
  simp only [Bool.false_eq_true, if_false, htn]
  rw [getOrCreateTeacher_of_found hteach]
  simp only [Bool.false_eq_true, if_false, hsn]
  rw [getOrCreateSubject_of_found hsub]
  simp only [Bool.false_eq_true, if_false]
  rw [hdup]

/-! ## Smart importer: fault accounting lemmas -/

theorem entryPrefix_counters (fid : Nat) (e : Entry) (k : Nat) (d : DB) (s : Smart.SStats) :
    (Smart.entryPrefix fid e k d s).2.imported = s.imported ∧
      (Smart.entryPrefix fid e k d s).2.skipped = s.skipped ∧
      (Smart.entryPrefix fid e k d s).2.errors = s.errors := by
  simp only [Smart.entryPrefix]
  repeat' split
  all_goals exact ⟨rfl, rfl, rfl⟩

theorem smartStep_errors (fid : Nat) (acc : DB × Smart.SStats) (pe : Entry × Option Nat) :
    (Smart.step fid acc pe).2.errors =
      acc.2.errors + (if pe.2.isSome then 1 else 0) := by
  rcases pe with ⟨e, fk⟩
  cases fk with
  | some k =>
    have h := (entryPrefix_counters fid e (min k 3) acc.1 acc.2).2.2
    simp [Smart.step, h]
  | none =>
    simp only [Smart.step]
    repeat' split
    all_goals simp_all

theorem smartStep_account (fid : Nat) (acc : DB × Smart.SStats) (pe : Entry × Option Nat) :
    (Smart.step fid acc pe).2.imported + (Smart.step fid acc pe).2.skipped +
        (Smart.step fid acc pe).2.errors =
      acc.2.imported + acc.2.skipped + acc.2.errors + 1 := by
  rcases pe with ⟨e, fk⟩
  cases fk with
  | some k =>
    obtain ⟨h1, h2, h3⟩ := entryPrefix_counters fid e (min k 3) acc.1 acc.2
    simp only [Smart.step]
    simp only [h1, h2, h3]
    omega
  | none =>
    simp only [Smart.step]
    repeat' split
    all_goals simp_all
    all_goals omega

theorem foldl_smartStep_errors (fid : Nat) :
    ∀ (pes : List (Entry × Option Nat)) (acc : DB × Smart.SStats),
      (List.foldl (Smart.step fid) acc pes).2.errors =
        acc.2.errors + (pes.filter fun pe => pe.2.isSome).length := by
  intro pes
  induction pes with
  | nil => intro acc; simp
  | cons a t ih =>
    intro acc
    rw [List.foldl_cons, ih, smartStep_errors, List.filter_cons]
    by_cases h : a.2.isSome
    · simp [h]
      omega
    · simp [h]

theorem scanRows_some :
    ∀ (rows : List (List (Option PyStr))) (idx b i : Nat) (cols : List (Nat × PyStr)),
      Complete.scanRows rows idx b = some (i, cols) →
      ∃ k, i = idx + k ∧ k < b ∧
        (∃ r, rows.get? k = some r ∧ cols = Complete.rowPeriodCols r ∧ 3 ≤ cols.length) ∧
        ∀ j r2, j < k → rows.get? j = some r2 → (Complete.rowPeriodCols r2).length < 3 := by
  intro rows
  induction rows with
  | nil =>
    intro idx b i cols h
    cases b with
    | zero => cases h
    | succ b2 => cases h
  | cons r rs ih =>
    intro idx b i cols h
    cases b with
    | zero => cases h
    | succ b2 =>
      simp only [Complete.scanRows] at h
      by_cases hr : 3 ≤ (Complete.rowPeriodCols r).length
      · rw [if_pos hr] at h
        have h2 := Option.some.inj h
        obtain ⟨rfl, rfl⟩ : idx = i ∧ Complete.rowPeriodCols r = cols :=
          ⟨congrArg Prod.fst h2, congrArg Prod.snd h2⟩
        refine ⟨0, by omega, Nat.succ_pos _, ⟨r, rfl, rfl, hr⟩, ?_⟩
        intro j r2 hj _
        omega
      · rw [if_neg hr] at h
        obtain ⟨k, hik, hkb, ⟨r2, hr2, hcols, hlen⟩, hmin⟩ := ih (idx + 1) b2 i cols h
        refine ⟨k + 1, by omega, by omega, ⟨r2, by simpa using hr2, hcols, hlen⟩, ?_⟩
        intro j r3 hj hget
        cases j with
        | zero =>
          simp only [List.get?] at hget
          obtain rfl := Option.some.inj hget
          omega
        | succ j2 =>
          simp only [List.get?] at hget
          exact hmin j2 r3 (by omega) hget

theorem scanRows_none :
    ∀ (rows : List (List (Option PyStr))) (idx b : Nat),
      Complete.scanRows rows idx b = none →
      ∀ k r2, k < b → rows.get? k = some r2 → (Complete.rowPeriodCols r2).length < 3 := by
  intro rows
  induction rows with
  | nil =>
    intro idx b h k r2 _ hget
    cases k <;> cases hget
  | cons r rs ih =>
    intro idx b h k r2 hk hget
    cases b with
    | zero => omega
    | succ b2 =>
      simp only [Complete.scanRows] at h
      by_cases hr : 3 ≤ (Complete.rowPeriodCols r).length
      · rw [if_pos hr] at h
        cases h
      · rw [if_neg hr] at h
        cases k with
        | zero =>
          simp only [List.get?] at hget
          obtain rfl := Option.some.inj hget
          omega
        | succ k2 =>
          simp only [List.get?] at hget
          exact ih (idx + 1) b2 h k2 r2 (by omega) hget

/-! ## Complete extractor: per-row emission lemmas -/

theorem periods_have_times :
    ∀ p ∈ Complete.PERIOD_KEYS, ∃ sts ets : PyStr,
      Complete.timeLookup p = some (sts, ets) ∧ ¬(sts = [] ∨ ets = []) := by
  intro p hp
  fin_cases hp
  all_goals exact ⟨_, _, rfl, by decide⟩

theorem mkEntry_spec (pr : Option PyStr × Option PyStr) (cn : PyStr) (day : Nat)
    (dn : PyStr) (st et : Option Time) (p : PyStr) (fl : Nat) :
    (Complete.mkEntry pr cn day dn st et p fl).period = p ∧
      ((Complete.mkEntry pr cn day dn st et p fl).is_free = false ∧
          (Complete.mkEntry pr cn day dn st et p fl).subject ≠ [] ∧
          (Complete.mkEntry pr cn day dn st et p fl).teacher ≠ [] ∨
        (Complete.mkEntry pr cn day dn st et p fl).is_free = true ∧
          (Complete.mkEntry pr cn day dn st et p fl).subject = pyl "Free Period" ∧
          (Complete.mkEntry pr cn day dn st et p fl).teacher = pyl "No Teacher") := by
  rcases pr with ⟨a, b⟩
  cases a with
  | none => exact ⟨rfl, Or.inr ⟨rfl, rfl, rfl⟩⟩
  | some sa =>
    cases b with
    | none => exact ⟨rfl, Or.inr ⟨rfl, rfl, rfl⟩⟩
    | some tb =>
      by_cases hg : sa = [] ∨ tb = []
      · dsimp only [Complete.mkEntry]
        rw [if_pos hg]
        exact ⟨rfl, Or.inr ⟨rfl, rfl, rfl⟩⟩
      · push_neg at hg
        dsimp only [Complete.mkEntry]
        rw [if_neg (not_or.mpr ⟨hg.1, hg.2⟩)]
        exact ⟨rfl, Or.inl ⟨rfl, hg.1, hg.2⟩⟩

theorem emitPeriod_spec (pc : List (Nat × PyStr)) (row : List (Option PyStr))
    (cn : PyStr) (day : Nat) (dn : PyStr) (fl : Nat) :
    ∀ p ∈ Complete.PERIOD_KEYS,
      ∃ e, Complete.emitPeriod pc row cn day dn fl p = some e ∧ e.period = p ∧
        (e.is_free = false ∧ e.subject ≠ [] ∧ e.teacher ≠ [] ∨
          e.is_free = true ∧ e.subject = pyl "Free Period" ∧
            e.teacher = pyl "No Teacher") := by
  intro p hp
  obtain ⟨sts, ets, htl, hne⟩ := periods_have_times p hp
  refine ⟨Complete.mkEntry (Complete.cellPair pc row p) cn day dn (parse_time sts)
    (parse_time ets) p fl, ?_, ?_⟩
  · simp only [Complete.emitPeriod, htl]
    rw [if_neg hne]
  · exact mkEntry_spec (Complete.cellPair pc row p) cn day dn (parse_time sts)
      (parse_time ets) p fl

theorem foldl_smartStep_account (fid : Nat) :
    ∀ (pes : List (Entry × Option Nat)) (acc : DB × Smart.SStats),
      (List.foldl (Smart.step fid) acc pes).2.imported +
          (List.foldl (Smart.step fid) acc pes).2.skipped +
          (List.foldl (Smart.step fid) acc pes).2.errors =
        acc.2.imported + acc.2.skipped + acc.2.errors + pes.length := by
  intro pes
  induction pes with
  | nil => intro acc; simp
  | cons a t ih =>
    intro acc
    rw [List.foldl_cons, ih, List.length_cons]
    have := smartStep_account fid acc a
    omega

/-! ## Claim theorems -/

/-- C1: running the same import over the same entries twice with
clear-existing disabled leaves the database (hence the persisted Schedule
rows) after the second run identical to the state after the first run; on
the second run the imported counter is 0 and the duplicate-skip counter
equals the number of entries fed in, because every entry's natural key
already matches an existing Schedule row and is skipped without
modification. -/
theorem claim1_import_idempotent (d0 : DB) (entries : List Entry) (n : Nat) :
    (Complete.import_to_database entries n false
        ((Complete.import_to_database entries n false d0).1)).1 =
      (Complete.import_to_database entries n false d0).1 ∧
    (Complete.import_to_database entries n false
        ((Complete.import_to_database entries n false d0).1)).2.imported = 0 ∧
    (Complete.import_to_database entries n false
        ((Complete.import_to_database entries n false d0).1)).2.skipped = entries.length := by
  have h := import_run_fix entries n d0
  rw [h]
  exact ⟨rfl, rfl, rfl⟩

/-- C2: in complete mode, every processed class row (first cell truthy and
at least 2 characters after trimming) on a page whose day and period row
were resolved emits exactly 10 raw entries, one per period 1..10 in order,
each either academic (is-free false with non-empty subject and teacher) or
the explicit placeholder with is-free true, subject Free Period and teacher
No Teacher; the row contributes exactly this block to the page output. -/
theorem claim2_complete_row_emits_ten (pc : List (Nat × PyStr))
    (row : List (Option PyStr)) (rest : List (List (Option PyStr))) (cn : PyStr)
    (day : Nat) (dn : PyStr) (fl : Nat) (h : Complete.rowClassName row = some cn) :
    Complete.processClassRows pc (row :: rest) day dn fl =
        Complete.emitRow pc row cn day dn fl ++
          Complete.processClassRows pc rest day dn fl ∧
      (Complete.emitRow pc row cn day dn fl).length = 10 ∧
      (Complete.emitRow pc row cn day dn fl).map (fun e => e.period) =
        Complete.PERIOD_KEYS ∧
      ∀ e ∈ Complete.emitRow pc row cn day dn fl,
        e.is_free = false ∧ e.subject ≠ [] ∧ e.teacher ≠ [] ∨
          e.is_free = true ∧ e.subject = pyl "Free Period" ∧
            e.teacher = pyl "No Teacher" := by
  refine ⟨?_, ?_, ?_, ?_⟩
  · simp only [Complete.processClassRows, h]
  · have hs : ∀ p ∈ Complete.PERIOD_KEYS,
        (Complete.emitPeriod pc row cn day dn fl p).isSome := by
      intro p hp
      obtain ⟨e, he, _⟩ := emitPeriod_spec pc row cn day dn fl p hp
      rw [he]; rfl
    unfold Complete.emitRow
    rw [filterMap_length_of_isSome hs]
    rfl
  · unfold Complete.emitRow
    apply filterMap_map_retract
    intro p hp
    obtain ⟨e, he, hper, _⟩ := emitPeriod_spec pc row cn day dn fl p hp
    exact ⟨e, he, hper⟩
  · intro e he
    obtain ⟨p, hp, hpe⟩ := List.mem_filterMap.mp he
    obtain ⟨e2, he2, _, hdisj⟩ := emitPeriod_spec pc row cn day dn fl p hp
    rw [he2] at hpe
    obtain rfl := Option.some.inj hpe
    exact hdisj

/-- Witness for C2 at a concrete header mapping and class row. -/
theorem claim2_witness :
    Complete.rowClassName [some (pyl "9A"), some (pyl "Math\nMr. Ali")] =
        some (pyl "9A") ∧
      (Complete.processClassRows [(1, pyl "1")]
            [[some (pyl "9A"), some (pyl "Math\nMr. Ali")]] 1 (pyl "tuesday") 2 =
          Complete.emitRow [(1, pyl "1")] [some (pyl "9A"), some (pyl "Math\nMr. Ali")]
              (pyl "9A") 1 (pyl "tuesday") 2 ++
            Complete.processClassRows [(1, pyl "1")] [] 1 (pyl "tuesday") 2 ∧
        (Complete.emitRow [(1, pyl "1")] [some (pyl "9A"), some (pyl "Math\nMr. Ali")]
            (pyl "9A") 1 (pyl "tuesday") 2).length = 10 ∧
        (Complete.emitRow [(1, pyl "1")] [some (pyl "9A"), some (pyl "Math\nMr. Ali")]
            (pyl "9A") 1 (pyl "tuesday") 2).map (fun e => e.period) =
          Complete.PERIOD_KEYS ∧
        ∀ e ∈ Complete.emitRow [(1, pyl "1")]
            [some (pyl "9A"), some (pyl "Math\nMr. Ali")] (pyl "9A") 1 (pyl "tuesday") 2,
          e.is_free = false ∧ e.subject ≠ [] ∧ e.teacher ≠ [] ∨
            e.is_free = true ∧ e.subject = pyl "Free Period" ∧
              e.teacher = pyl "No Teacher") :=
  ⟨by decide, claim2_complete_row_emits_ten [(1, pyl "1")]
    [some (pyl "9A"), some (pyl "Math\nMr. Ali")] [] (pyl "9A") 1 (pyl "tuesday") 2
    (by decide)⟩

/-- C3 counterexample: in the pdf importer a missing-teacher entry and a
natural-key duplicate increment the same skipped counter (final statistics
3 processed, 1 imported, 2 skipped, 0 errors), and each cause alone
increments that very field, so duplicates are not counted separately from
invalid-entry skips. -/
theorem claim3_counterexample :
    (Pdf.import_schedule_to_database
        [⟨some 1, some (9, 0), some (9, 40), some (pyl "7A"), none, some (pyl "Math")⟩,
         ⟨some 1, some (9, 0), some (9, 40), some (pyl "7A"), some (pyl "Mr. X"),
           some (pyl "Math")⟩,
         ⟨some 1, some (9, 0), some (9, 40), some (pyl "7A"), some (pyl "Mr. X"),
           some (pyl "Math")⟩] 2 emptyDB).2 = ⟨3, 1, 2, 0, 1, 1, 1⟩ ∧
      (Pdf.import_schedule_to_database
        [⟨some 1, some (9, 0), some (9, 40), some (pyl "7A"), none,
           some (pyl "Math")⟩] 2 emptyDB).2.skipped = 1 ∧
      (Pdf.import_schedule_to_database
        [⟨some 1, some (9, 0), some (9, 40), some (pyl "7A"), some (pyl "Mr. X"),
           some (pyl "Math")⟩,
         ⟨some 1, some (9, 0), some (9, 40), some (pyl "7A"), some (pyl "Mr. X"),
           some (pyl "Math")⟩] 2 emptyDB).2.skipped = 1 := by
  decide

/-- C3 amended: a missing required field (day, time, class name, teacher or
subject) increments the shared skipped counter and processing continues with
the next entry rather than aborting the batch; a natural-key duplicate
increments that same skipped counter (separate only from the errors
counter), producing the same statistics delta as an invalid entry. -/
theorem claim3_amended_skip_counting (fid : Nat) (d : DB) (s : Pdf.PStats)
    (e : Pdf.PdfEntry) :
    (e.day = none →
        Pdf.step fid (d, s) e =
          (d, { s with processed := s.processed + 1, skipped := s.skipped + 1 })) ∧
      (∀ day cn c, e.day = some day → e.startT.isNone = false → e.endT.isNone = false →
        Pdf.truthyStr e.class_name = some cn → findClass d cn fid = some c →
        Pdf.truthyStr e.teacher = none →
        Pdf.step fid (d, s) e =
          (d, { s with processed := s.processed + 1, skipped := s.skipped + 1 })) ∧
      (∀ day cn c tn t sn sb sch, e.day = some day → e.startT.isNone = false →
        e.endT.isNone = false → Pdf.truthyStr e.class_name = some cn →
        findClass d cn fid = some c → Pdf.truthyStr e.teacher = some tn →
        findTeacher d tn = some t → Pdf.truthyStr e.subject = some sn →
        findSubject d sn = some sb →
        findSchedule d c.id day e.startT e.endT = some sch →
        Pdf.step fid (d, s) e =
          (d, { s with processed := s.processed + 1, skipped := s.skipped + 1 })) ∧
      ∀ (acc : DB × Pdf.PStats) (rest : List Pdf.PdfEntry),
        List.foldl (Pdf.step fid) acc (e :: rest) =
          List.foldl (Pdf.step fid) (Pdf.step fid acc e) rest := by
  refine ⟨fun h => pdfStep_day_none h, ?_, ?_, fun acc rest => rfl⟩
  · intro day cn c h1 h2 h3 h4 h5 h6
    exact pdfStep_teacher_missing h1 h2 h3 h4 h5 h6
  · intro day cn c tn t sn sb sch h1 h2 h3 h4 h5 h6 h7 h8 h9 h10
    exact pdfStep_duplicate h1 h2 h3 h4 h5 h6 h7 h8 h9 h10

/-- Witness for C3 amended: the three skip outcomes at concrete inputs. -/
theorem claim3_witness :
    Pdf.step 1 (emptyDB, ⟨0, 0, 0, 0, 0, 0, 0⟩)
        ⟨none, some (9, 0), some (9, 40), some (pyl "7A"), some (pyl "T"),
          some (pyl "M")⟩ =
      (emptyDB,
        { (⟨0, 0, 0, 0, 0, 0, 0⟩ : Pdf.PStats) with processed := 0 + 1, skipped := 0 + 1 }) ∧
    Pdf.step 1
        (⟨[⟨1, pyl "F", 2⟩], [⟨1, pyl "7A", 1⟩], [⟨1, pyl "T"⟩], [⟨1, pyl "M"⟩],
          [⟨1, 1, 1, 1, 1, some (9, 0), some (9, 40)⟩], 2, 2, 2, 2, 2⟩,
         ⟨0, 0, 0, 0, 0, 0, 0⟩)
        ⟨some 1, some (9, 0), some (9, 40), some (pyl "7A"), none, some (pyl "M")⟩ =
      (⟨[⟨1, pyl "F", 2⟩], [⟨1, pyl "7A", 1⟩], [⟨1, pyl "T"⟩], [⟨1, pyl "M"⟩],
          [⟨1, 1, 1, 1, 1, some (9, 0), some (9, 40)⟩], 2, 2, 2, 2, 2⟩,
        { (⟨0, 0, 0, 0, 0, 0, 0⟩ : Pdf.PStats) with processed := 0 + 1, skipped := 0 + 1 }) ∧
    Pdf.step 1
        (⟨[⟨1, pyl "F", 2⟩], [⟨1, pyl "7A", 1⟩], [⟨1, pyl "T"⟩], [⟨1, pyl "M"⟩],
          [⟨1, 1, 1, 1, 1, some (9, 0), some (9, 40)⟩], 2, 2, 2, 2, 2⟩,
         ⟨0, 0, 0, 0, 0, 0, 0⟩)
        ⟨some 1, some (9, 0), some (9, 40), some (pyl "7A"), some (pyl "T"),
          some (pyl "M")⟩ =
      (⟨[⟨1, pyl "F", 2⟩], [⟨1, pyl "7A", 1⟩], [⟨1, pyl "T"⟩], [⟨1, pyl "M"⟩],
          [⟨1, 1, 1, 1, 1, some (9, 0), some (9, 40)⟩], 2, 2, 2, 2, 2⟩,
        { (⟨0, 0, 0, 0, 0, 0, 0⟩ : Pdf.PStats) with processed := 0 + 1, skipped := 0 + 1 }) :=
  ⟨(claim3_amended_skip_counting 1 emptyDB ⟨0, 0, 0, 0, 0, 0, 0⟩
      ⟨none, some (9, 0), some (9, 40), some (pyl "7A"), some (pyl "T"),
        some (pyl "M")⟩).1 rfl,
   (claim3_amended_skip_counting 1
      ⟨[⟨1, pyl "F", 2⟩], [⟨1, pyl "7A", 1⟩], [⟨1, pyl "T"⟩], [⟨1, pyl "M"⟩],
        [⟨1, 1, 1, 1, 1, some (9, 0), some (9, 40)⟩], 2, 2, 2, 2, 2⟩
      ⟨0, 0, 0, 0, 0, 0, 0⟩
      ⟨some 1, some (9, 0), some (9, 40), some (pyl "7A"), none, some (pyl "M")⟩).2.1
      1 (pyl "7A") ⟨1, pyl "7A", 1⟩ rfl rfl rfl (by decide) (by decide) rfl,
   (claim3_amended_skip_counting 1
      ⟨[⟨1, pyl "F", 2⟩], [⟨1, pyl "7A", 1⟩], [⟨1, pyl "T"⟩], [⟨1, pyl "M"⟩],
        [⟨1, 1, 1, 1, 1, some (9, 0), some (9, 40)⟩], 2, 2, 2, 2, 2⟩
      ⟨0, 0, 0, 0, 0, 0, 0⟩
      ⟨some 1, some (9, 0), some (9, 40), some (pyl "7A"), some (pyl "T"),
        some (pyl "M")⟩).2.2.1
      1 (pyl "7A") ⟨1, pyl "7A", 1⟩ (pyl "T") ⟨1, pyl "T"⟩ (pyl "M") ⟨1, pyl "M"⟩
      ⟨1, 1, 1, 1, 1, some (9, 0), some (9, 40)⟩ rfl rfl rfl (by decide) (by decide)
      (by decide) (by decide) (by decide) (by decide) (by decide)⟩

/-- C4: the smart cell classifier satisfies the reference vector: a
two-line cell splits into subject and teacher, a filler cell and an empty
cell classify as empty, and a single-line cell gets the sentinel teacher
Unknown. -/
theorem claim4_classifier_reference_vector :
    Smart.extract_subject_and_teacher (pyl "Math\nMr. Ali") =
        (some (pyl "Math"), some (pyl "Mr. Ali")) ∧
      Smart.extract_subject_and_teacher (pyl "Break") = (none, none) ∧
      Smart.extract_subject_and_teacher (pyl "") = (none, none) ∧
      Smart.extract_subject_and_teacher (pyl "Art") =
        (some (pyl "Art"), some (pyl "Unknown")) := by
  decide

/-- C5: in the complete cell classifier a filler-keyword hit forces the
empty classification regardless of any length or content check, and every
input whose first non-blank line is shorter than 2 characters classifies
as empty rather than academic. -/
theorem claim5_filler_precedence_and_short_subject (s : PyStr) :
    (Complete.skip_keywords.any (fun kw => hasSub (lowerL (trimL s)) kw) = true →
        Complete.extract_subject_and_teacher s = (none, none)) ∧
      ∀ l, subjectLine s = some l → l.length < 2 →
        Complete.extract_subject_and_teacher s = (none, none) := by
  constructor
  · intro hkw
    simp only [Complete.extract_subject_and_teacher]
    split
    · rfl
    · rfl
  · intro l hl hlen
    simp only [Complete.extract_subject_and_teacher]
    split
    · rfl
    split
    · rfl
    split
    · rfl
    cases hpl : pyLines (trimL s) with
    | nil => rfl
    | cons l2 rest2 =>
      unfold subjectLine at hl
      rw [hpl] at hl
      obtain rfl := Option.some.inj hl
      have hshort : (trimL l2).length < 2 :=
        Nat.lt_of_le_of_lt (trimL_length_le l2) hlen
      dsimp only
      rw [if_pos hshort]

/-- Witness for C5: a filler cell and a short-subject cell both classify as
empty. -/
theorem claim5_witness :
    (Complete.skip_keywords.any
        (fun kw => hasSub (lowerL (trimL (pyl "Lunch with Y"))) kw) = true ∧
      Complete.extract_subject_and_teacher (pyl "Lunch with Y") = (none, none)) ∧
    (subjectLine (pyl "A\nBob") = some (pyl "A") ∧
      Complete.extract_subject_and_teacher (pyl "A\nBob") = (none, none)) :=
  ⟨⟨by decide, (claim5_filler_precedence_and_short_subject (pyl "Lunch with Y")).1
      (by decide)⟩,
   ⟨by decide, (claim5_filler_precedence_and_short_subject (pyl "A\nBob")).2
      (pyl "A") (by decide) (by decide)⟩⟩

/-- C6 counterexample: a row of three cells all reading 1 is accepted as the
period-header row although its matches cover only one distinct period, so
acceptance is keyed on at least 3 matching cells, not on 3 distinct
periods. -/
theorem claim6_counterexample :
    Complete.findPeriodRow [[some (pyl "1"), some (pyl "1"), some (pyl "1")]] =
        some (0, [(0, pyl "1"), (1, pyl "1"), (2, pyl "1")]) ∧
      (([(0, pyl "1"), (1, pyl "1"), (2, pyl "1")].map Prod.snd).dedup.length = 1) ∧
      ¬3 ≤ ([(0, pyl "1"), (1, pyl "1"), (2, pyl "1")].map Prod.snd).dedup.length := by
  decide

/-- C6 amended: the locator scans at most the first 5 rows; a row is
accepted iff it is the first scanned row containing at least 3 cells
matching a period token (cells counted with multiplicity, so the matched
periods need not be distinct), in which case that row's column-to-period
mapping is recorded; if no row among the first 5 qualifies, the page
contributes no entries and the run continues. -/
theorem claim6_amended_locator_characterization (table : List (List (Option PyStr))) :
    (∀ i cols, Complete.findPeriodRow table = some (i, cols) →
        i < 5 ∧
          (∃ r, table.get? i = some r ∧ cols = Complete.rowPeriodCols r ∧
            3 ≤ cols.length) ∧
          ∀ j r2, j < i → table.get? j = some r2 →
            (Complete.rowPeriodCols r2).length < 3) ∧
      (Complete.findPeriodRow table = none →
        (∀ k r2, k < 5 → table.get? k = some r2 →
            (Complete.rowPeriodCols r2).length < 3) ∧
          ∀ text floor, Complete.processPage table text floor = []) := by
  constructor
  · intro i cols h
    obtain ⟨k, hik, hk5, hr, hmin⟩ := scanRows_some table 0 5 i cols h
    obtain rfl : i = k := by omega
    exact ⟨hk5, hr, hmin⟩
  · intro h
    refine ⟨scanRows_none table 0 5 h, ?_⟩
    intro text floor
    unfold Complete.processPage
    cases hd : Complete.resolveDay table text with
    | none => rfl
    | some dn =>
      rcases dn with ⟨dname, dnum⟩
      rw [h]

/-- Witness for C6 amended at a concrete table whose second to fourth cells
carry the tokens 1, 2, 3. -/
theorem claim6_witness :
    (0 : Nat) < 5 ∧
      3 ≤ ([(1, pyl "1"), (2, pyl "2"), (3, pyl "3")] : List (Nat × PyStr)).length := by
  have h := (claim6_amended_locator_characterization
      [[some (pyl "C"), some (pyl "1"), some (pyl "2"), some (pyl "3")]]).1 0
      [(1, pyl "1"), (2, pyl "2"), (3, pyl "3")] (by decide)
  obtain ⟨h1, ⟨r, _, _, hlen⟩, _⟩ := h
  exact ⟨h1, hlen⟩

/-- C7 counterexample: a page whose header cells carry no day token and
whose text contains Tuesday resolves to sunday (index 6), not tuesday
(index 1), because the fallback scans the vocabulary in insertion order and
the text also contains Sunday. -/
theorem claim7_counterexample :
    Complete.dayFromTable [[some (pyl "x")]] = none ∧
      hasSub (lowerL (pyl "Sunday Tuesday")) (pyl "tuesday") = true ∧
      Complete.resolveDay [[some (pyl "x")]] (some (pyl "Sunday Tuesday")) =
        some (pyl "sunday", 6) ∧
      Complete.resolveDay [[some (pyl "x")]] (some (pyl "Sunday Tuesday")) ≠
        some (pyl "tuesday", 1) := by
  decide

/-- C7 amended: when the header-cell scan fails, the resolver falls back to
the full page text and returns the first vocabulary day found there in
order sunday, monday, tuesday, ...; in particular a non-empty text
containing tuesday but neither sunday nor monday resolves to index 1
(Monday = 0 ordering) rather than not-found. -/
theorem claim7_amended_text_fallback (table : List (List (Option PyStr))) (t : PyStr)
    (h1 : Complete.dayFromTable table = none) (h2 : t ≠ [])
    (h3 : hasSub (lowerL t) (pyl "tuesday") = true)
    (h4 : hasSub (lowerL t) (pyl "sunday") = false)
    (h5 : hasSub (lowerL t) (pyl "monday") = false) :
    Complete.resolveDay table (some t) = some (pyl "tuesday", 1) := by
  unfold Complete.resolveDay
  rw [h1]
  show Complete.dayFromText (some t) = _
  unfold Complete.dayFromText
  dsimp only
  rw [if_neg h2]
  rw [show Complete.DAY_MAPPING = (pyl "sunday", 6) :: (pyl "monday", 0) ::
    (pyl "tuesday", 1) :: (pyl "wednesday", 2) :: (pyl "thursday", 3) ::
    (pyl "friday", 4) :: [(pyl "saturday", 5)] from rfl]
  rw [List.find?_cons_of_neg _ (by simp [h4]), List.find?_cons_of_neg _ (by simp [h5]),
    List.find?_cons_of_pos _ (by simpa using h3)]

/-- Witness for C7 amended at a concrete page. -/
theorem claim7_witness :
    Complete.resolveDay [[some (pyl "x")]] (some (pyl "see you Tuesday")) =
      some (pyl "tuesday", 1) :=
  claim7_amended_text_fallback [[some (pyl "x")]] (pyl "see you Tuesday")
    (by decide) (by decide) (by decide) (by decide) (by decide)

/-- C8: deleting a Teacher or a Subject that is referenced by at least one
Schedule is refused and leaves the whole database (the Teacher or Subject
and every Schedule row) exactly as it was. -/
theorem claim8_delete_guard (d : DB) (tid sid : Nat) :
    ((∃ t, findTeacherById d tid = some t ∧ ∃ s ∈ d.schedules, s.teacherId = t.id) →
        delete_teacher d tid = (d, false)) ∧
      ((∃ sb, findSubjectById d sid = some sb ∧ ∃ s ∈ d.schedules, s.subjectId = sb.id) →
        delete_subject d sid = (d, false)) := by
  constructor
  · rintro ⟨t, ht, s, hs, hsid⟩
    unfold delete_teacher
    rw [ht]
    dsimp only
    have hany : (d.schedules.any fun x => decide (x.teacherId = t.id)) = true :=
      List.any_eq_true.mpr ⟨s, hs, by simp [hsid]⟩
    rw [if_pos hany]
  · rintro ⟨sb, hsb, s, hs, hsid⟩
    unfold delete_subject
    rw [hsb]
    dsimp only
    have hany : (d.schedules.any fun x => decide (x.subjectId = sb.id)) = true :=
      List.any_eq_true.mpr ⟨s, hs, by simp [hsid]⟩
    rw [if_pos hany]

/-- Witness for C8 at a one-row database whose single schedule references
the teacher and the subject. -/
theorem claim8_witness :
    delete_teacher
        ⟨[], [], [⟨1, pyl "T"⟩], [⟨1, pyl "M"⟩],
          [⟨1, 1, 1, 1, 1, some (9, 0), some (9, 40)⟩], 1, 1, 2, 2, 2⟩ 1 =
      (⟨[], [], [⟨1, pyl "T"⟩], [⟨1, pyl "M"⟩],
          [⟨1, 1, 1, 1, 1, some (9, 0), some (9, 40)⟩], 1, 1, 2, 2, 2⟩, false) ∧
    delete_subject
        ⟨[], [], [⟨1, pyl "T"⟩], [⟨1, pyl "M"⟩],
          [⟨1, 1, 1, 1, 1, some (9, 0), some (9, 40)⟩], 1, 1, 2, 2, 2⟩ 1 =
      (⟨[], [], [⟨1, pyl "T"⟩], [⟨1, pyl "M"⟩],
          [⟨1, 1, 1, 1, 1, some (9, 0), some (9, 40)⟩], 1, 1, 2, 2, 2⟩, false) :=
  ⟨(claim8_delete_guard
      ⟨[], [], [⟨1, pyl "T"⟩], [⟨1, pyl "M"⟩],
        [⟨1, 1, 1, 1, 1, some (9, 0), some (9, 40)⟩], 1, 1, 2, 2, 2⟩ 1 1).1
      ⟨⟨1, pyl "T"⟩, by decide, ⟨1, 1, 1, 1, 1, some (9, 0), some (9, 40)⟩,
        by decide, rfl⟩,
   (claim8_delete_guard
      ⟨[], [], [⟨1, pyl "T"⟩], [⟨1, pyl "M"⟩],
        [⟨1, 1, 1, 1, 1, some (9, 0), some (9, 40)⟩], 1, 1, 2, 2, 2⟩ 1 1).2
      ⟨⟨1, pyl "M"⟩, by decide, ⟨1, 1, 1, 1, 1, some (9, 0), some (9, 40)⟩,
        by decide, rfl⟩⟩

/-- C9 counterexample: an injected persistence failure at the final
schedule insert of one smart-import entry is caught and counted as an
error, but the teacher row created and committed earlier while processing
that same entry persists — the entry's attempted writes are not all rolled
back. -/
theorem claim9_counterexample :
    (Smart.import_to_database_f
        [(⟨pyl "7A", 1, pyl "monday", some (8, 30), some (9, 5), pyl "Science",
            pyl "Mr. New", pyl "1", 2, false⟩, some 3)] 2 emptyDB).2.errors = 1 ∧
      (findTeacher
        (Smart.import_to_database_f
          [(⟨pyl "7A", 1, pyl "monday", some (8, 30), some (9, 5), pyl "Science",
              pyl "Mr. New", pyl "1", 2, false⟩, some 3)] 2 emptyDB).1
        (pyl "Mr. New")).isSome = true ∧
      (Smart.import_to_database_f
        [(⟨pyl "7A", 1, pyl "monday", some (8, 30), some (9, 5), pyl "Science",
            pyl "Mr. New", pyl "1", 2, false⟩, some 3)] 2 emptyDB).1.schedules = [] := by
  decide

/-- C9 amended: a persistence failure while processing one entry is caught
and counted through the errors counter, only the entry's uncommitted writes
are rolled back (the database is left at the committed prefix of that
entry's units), and the loop proceeds with the remaining entries: the
final errors counter counts exactly the faulted entries, and every entry is
accounted as exactly one of imported, skipped or error. -/
theorem claim9_amended_failure_isolation (fid : Nat) (d : DB) (s : Smart.SStats)
    (e : Entry) (k : Nat) (pes : List (Entry × Option Nat)) :
    (List.foldl (Smart.step fid) (d, s) ((e, some k) :: pes) =
        List.foldl (Smart.step fid)
          ((Smart.entryPrefix fid e (min k 3) d s).1,
            { (Smart.entryPrefix fid e (min k 3) d s).2 with
                errors := (Smart.entryPrefix fid e (min k 3) d s).2.errors + 1 }) pes) ∧
      (∀ acc : DB × Smart.SStats,
        (List.foldl (Smart.step fid) acc pes).2.errors =
          acc.2.errors + (pes.filter fun pe => pe.2.isSome).length) ∧
      ∀ acc : DB × Smart.SStats,
        (List.foldl (Smart.step fid) acc pes).2.imported +
            (List.foldl (Smart.step fid) acc pes).2.skipped +
            (List.foldl (Smart.step fid) acc pes).2.errors =
          acc.2.imported + acc.2.skipped + acc.2.errors + pes.length :=
  ⟨rfl, fun acc => foldl_smartStep_errors fid pes acc,
    fun acc => foldl_smartStep_account fid pes acc⟩

/-- C10: on every input each classifier returns either the empty
classification (None, None) or a pair in which both subject and teacher are
present and non-empty — never a subject without a teacher or a teacher
without a subject. -/
theorem claim10_classifier_pair_totality (s : PyStr) :
    (Smart.extract_subject_and_teacher s = (none, none) ∨
        ∃ a b, Smart.extract_subject_and_teacher s = (some a, some b) ∧
          a ≠ [] ∧ b ≠ []) ∧
      (Complete.extract_subject_and_teacher s = (none, none) ∨
        ∃ a b, Complete.extract_subject_and_teacher s = (some a, some b) ∧
          a ≠ [] ∧ b ≠ []) := by
  constructor
  · simp only [Smart.extract_subject_and_teacher]
    split
    · exact Or.inl rfl
    split
    · exact Or.inl rfl
    cases hl : pyLines (trimL s) with
    | nil => exact Or.inl rfl
    | cons subj rest =>
      refine Or.inr ⟨subj, _, rfl, ?_, ?_⟩
      · exact (pyLines_mem_props (hl ▸ List.mem_cons_self subj rest)).1
      · cases rest with
        | nil => decide
        | cons z t =>
          have hz := (pyLines_mem_props
            (hl ▸ List.mem_cons_of_mem subj (List.mem_cons_self z t))).1
          simpa using @joinSp_ne_nil z t hz
  · simp only [Complete.extract_subject_and_teacher]
    split
    · exact Or.inl rfl
    split
    · exact Or.inl rfl
    split
    · exact Or.inl rfl
    cases hl : pyLines (trimL s) with
    | nil => exact Or.inl rfl
    | cons subj rest =>
      dsimp only
      split
      · exact Or.inl rfl
      rename_i hlong
      refine Or.inr ⟨trimL subj, _, rfl, ?_, ?_⟩
      · intro hnil
        rw [hnil] at hlong
        exact hlong (by simp)
      · cases rest with
        | nil => decide
        | cons z t =>
          have hz := pyLines_mem_props
            (hl ▸ List.mem_cons_of_mem subj (List.mem_cons_self z t))
          have hzs : ∃ c ∈ joinSp (z :: t), isSpaceP c = false :=
            joinSp_nonspace hz.2
          simpa using trimL_ne_nil_of_exists hzs

end AMS
